import Mathlib

/-!
# Bug-Tracker API: verification of the report repository and route handlers

Shallow embedding of the TypeScript source:
  * `src/models/report.ts`   — the `ReportStore` repository,
  * `src/routes/reports.ts`  — the POST/PUT/GET report handlers, the
    attachment upload/download handlers, the in-memory audit log, and the
    entries pagination logic.

Dates (`new Date()`) are modelled as an `Int` clock value `now`, passed to
each handler. JavaScript numbers that can be `undefined`/`NaN` are modelled
by the `JsNum` type; string truthiness (`""` is falsy) and number truthiness
(`0`/`NaN` are falsy) are modelled explicitly where the source relies on it.
-/

/-- `Severity` from `src/models/report.ts`. -/
inductive Severity
  | low
  | medium
  | high
  | critical
deriving DecidableEq, Repr

/-- `Entry` from `src/models/report.ts`. -/
structure Entry where
  id : Int
  author : String
  comment : String
  createdAt : Int
deriving DecidableEq, Repr

/-- `Attachment` from `src/models/report.ts`. -/
structure Attachment where
  filename : String
  originalName : String
  mimetype : String
  size : Int
  uploadedAt : Int
deriving DecidableEq, Repr

/-- `Report` from `src/models/report.ts`. -/
structure Report where
  id : Int
  title : String
  description : String
  severity : Severity
  createdAt : Int
  updatedAt : Int
  entries : List Entry
  attachments : List Attachment
deriving DecidableEq, Repr

/-- Role of an authenticated user (`AuthPayload.role` in
`src/middleware/auth.ts`). -/
inductive Role
  | admin
  | developer
deriving DecidableEq, Repr

/-- `AuthPayload` from `src/middleware/auth.ts`: the identity `requireAuth`
attaches to the request as `req.user`. -/
structure AuthUser where
  id : String
  role : Role
deriving DecidableEq, Repr

/-- `String.prototype.toLowerCase()` on the basic latin range, via a
structural map over the characters (so that concrete instances reduce in
the kernel). -/
def lowerStr (s : String) : String :=
  String.mk (s.data.map Char.toLower)

/-- The `ReportStore` class state: its private `reports` array and the
`nextId` counter (`src/models/report.ts`). -/
structure ReportStore where
  reports : List Report
  nextId : Int
deriving DecidableEq, Repr

namespace ReportStore

/-- The store at process start: empty array, counter at 1. -/
def initial : ReportStore := { reports := [], nextId := 1 }

/-- `ReportStore.getReport`: `this.reports.find(report => report.id === id)`. -/
def getReport (s : ReportStore) (id : Int) : Option Report :=
  s.reports.find? (fun r => r.id == id)

/-- `ReportStore.getAllReports`: returns `this.reports`. -/
def getAllReports (s : ReportStore) : List Report :=
  s.reports

/-- `ReportStore.titleExists(title, excludeId?)`.  Note the JavaScript
truthiness of `excludeId ? report.id !== excludeId : true`: an `excludeId`
of `0` is falsy, so exclusion is applied only for a defined, non-zero id. -/
def titleExists (s : ReportStore) (title : String) (excludeId : Option Int) : Bool :=
  s.reports.any fun r =>
    lowerStr r.title == lowerStr title &&
      (match excludeId with
       | some e => if e == 0 then true else r.id != e
       | none => true)

/-- `ReportStore.addReport`: assigns `nextId++`, pushes the new report.
Returns the created report together with the new store state. -/
def addReport (s : ReportStore) (now : Int)
    (title description : String) (severity : Severity) : Report × ReportStore :=
  let newReport : Report :=
    { id := s.nextId, title := title, description := description,
      severity := severity, createdAt := now, updatedAt := now,
      entries := [], attachments := [] }
  (newReport, { reports := s.reports ++ [newReport], nextId := s.nextId + 1 })

/-- `ReportStore.addAttachment`: pushes the attachment onto the report's
`attachments` and sets `updatedAt`; `undefined` (here `none`) if the report
is absent. -/
def addAttachment (s : ReportStore) (now : Int) (reportId : Int)
    (a : Attachment) : Option ReportStore :=
  match s.getReport reportId with
  | none => none
  | some _ =>
      some { s with
        reports := s.reports.map fun r =>
          if r.id == reportId then
            { r with attachments := r.attachments ++ [a], updatedAt := now }
          else r }

/-- `ReportStore.deleteReport`: `findIndex` then `splice(index, 1)`, i.e.
remove the first report with the given id; `false` if none matches.
`nextId` is untouched. -/
def deleteReport (s : ReportStore) (id : Int) : Bool × ReportStore :=
  if s.reports.any (fun r => r.id == id) then
    (true, { s with reports := s.reports.eraseP (fun r => r.id == id) })
  else
    (false, s)

end ReportStore

/-- One field-level diff entry in an audit record's `changes` map
(`Record<string, [any, any]>` in `src/routes/reports.ts`); the handler only
ever records the three updatable fields. -/
inductive FieldChange
  | title (oldVal newVal : String)
  | description (oldVal newVal : String)
  | severity (oldVal newVal : Severity)
deriving DecidableEq, Repr

/-- `AuditEntry` from `src/routes/reports.ts`. -/
structure AuditEntry where
  reportId : Int
  userId : String
  changes : List FieldChange
  timestamp : Int
deriving DecidableEq, Repr

/-- The mutable module state of `src/routes/reports.ts`: the `ReportStore`
plus the in-memory `auditLogs` array. -/
structure ServerState where
  store : ReportStore
  auditLogs : List AuditEntry
deriving DecidableEq, Repr

/-! ## PUT /reports/:id — the update handler -/

/-- The request body of a PUT, after express's JSON body parsing, restricted
to the three keys `UpdateReportSchema` accepts (`.strict()` rejects others).
A key that is absent is `none`. -/
structure UpdateBody where
  title : Option String
  description : Option String
  severity : Option Severity
deriving DecidableEq, Repr

/-- `Object.keys(req.body).length === 0` for an `UpdateBody`. -/
def UpdateBody.isEmpty (b : UpdateBody) : Bool :=
  b.title == none && b.description == none && b.severity == none

/-- The `z.string().min(1).optional()` checks of `UpdateReportSchema`:
a supplied `title`/`description` must be non-empty. -/
def UpdateBody.schemaOk (b : UpdateBody) : Bool :=
  b.title != some "" && b.description != some ""

/-- The handler's observable result: an HTTP error status with its `error`
message, or a 200 response carrying the (possibly updated) report. -/
inductive UpdateResult
  | err (status : Nat) (msg : String)
  | ok (r : Report)
deriving DecidableEq, Repr

/-- Whether an `UpdateResult` is a success. -/
def UpdateResult.isOk : UpdateResult → Bool
  | .ok _ => true
  | .err _ _ => false

/-- Replace the first report with the given id (the in-place mutation of the
object `find` returned, seen at the level of the whole array). -/
def replaceFirst : List Report → Int → Report → List Report
  | [], _, _ => []
  | r :: rs, id, nr => if r.id == id then nr :: rs else r :: replaceFirst rs id nr

/-- The `updates.title` step of the diff-and-apply block
(`src/routes/reports.ts` lines 181–184): record and apply the title change
when a title is supplied and differs. -/
def diffTitle (r : Report) (bt : Option String) : List FieldChange × Report :=
  match bt with
  | some t =>
      if t != r.title then ([FieldChange.title r.title t], { r with title := t })
      else ([], r)
  | none => ([], r)

/-- The `updates.description` step (lines 185–188). -/
def diffDescription (r : Report) (bd : Option String) : List FieldChange × Report :=
  match bd with
  | some d =>
      if d != r.description then
        ([FieldChange.description r.description d], { r with description := d })
      else ([], r)
  | none => ([], r)

/-- The `updates.severity` step (lines 189–192). -/
def diffSeverity (r : Report) (bs : Option Severity) : List FieldChange × Report :=
  match bs with
  | some sv =>
      if sv != r.severity then
        ([FieldChange.severity r.severity sv], { r with severity := sv })
      else ([], r)
  | none => ([], r)

/-- The whole per-field diff-and-apply block of the PUT handler
(`src/routes/reports.ts` lines 177–192): returns the recorded `changes`
list (in the handler's field order) and the report with the changed fields
applied. -/
def applyUpdates (report : Report) (b : UpdateBody) : List FieldChange × Report :=
  let (c1, r1) := diffTitle report b.title
  let (c2, r2) := diffDescription r1 b.description
  let (c3, r3) := diffSeverity r2 b.severity
  (c1 ++ c2 ++ c3, r3)

/-- The PUT handler's unique-title guard
(`src/routes/reports.ts` line 169):
`updates.title && ReportStore.titleExists(updates.title, id)` — string
truthiness makes an empty (schema-rejected anyway) title skip the check. -/
def titleConflict (s : ReportStore) (id : Int) (bt : Option String) : Bool :=
  match bt with
  | some t => t != "" && s.titleExists t (some id)
  | none => false

/-- The PUT handler's severity gate (`src/routes/reports.ts` line 173):
`updates.severity === 'critical' && req.user && req.user.role !== 'admin'`.
Note it tests only the incoming value, not whether it differs from the
stored severity. -/
def escalationGate (bs : Option Severity) (user : Option AuthUser) : Bool :=
  bs == some .critical &&
    (match user with | some u => u.role != .admin | none => false)

/-- `PUT /reports/:id` (`src/routes/reports.ts` lines 150–221).
`idParam` is the result of `parseInt(req.params.id, 10)` (`none` = `NaN`).
The checks run in source order: id format, empty body, schema, existence,
title uniqueness, the critical-severity role gate, then diff/apply/audit. -/
def updateHandler (st : ServerState) (now : Int) (user : Option AuthUser)
    (idParam : Option Int) (body : UpdateBody) : UpdateResult × ServerState :=
  match idParam with
  | none => (.err 400 "Invalid report ID format", st)
  | some id =>
    if body.isEmpty then (.err 400 "No update data provided", st)
    else if !body.schemaOk then (.err 400 "Invalid update data", st)
    else
      match st.store.getReport id with
      | none => (.err 404 "Report not found", st)
      | some report =>
        if titleConflict st.store id body.title then
          (.err 409 "Another report with this title already exists", st)
        else
        if escalationGate body.severity user then
          (.err 403 "Only admins can escalate severity to critical", st)
        else
          let (changes, updated) := applyUpdates report body
          if changes.length > 0 then
            let updated := { updated with updatedAt := now }
            let entry : AuditEntry :=
              { reportId := report.id,
                userId := match user with | some u => u.id | none => "unknown",
                changes := changes, timestamp := now }
            (.ok updated,
             { store := { st.store with
                 reports := replaceFirst st.store.reports id updated },
               auditLogs := st.auditLogs ++ [entry] })
          else
            (.ok report, st)

/-! ## POST /reports — the create handler -/

/-- `POST /reports` (`src/routes/reports.ts` lines 109–147), taking the body
after JSON parsing: `NewReportSchema` requires non-empty `title` and
`description` and defaults a missing `severity` to `low`.  On success the
new report is created through `ReportStore.addReport`; the background
enqueue is a log-only side effect with no observable state. -/
def createHandler (st : ServerState) (now : Int)
    (title description : String) (severity : Option Severity) :
    UpdateResult × ServerState :=
  if title == "" || description == "" then
    (.err 400 "Invalid request data", st)
  else if st.store.titleExists title none then
    (.err 409 "A report with this title already exists", st)
  else
    let (r, store') := st.store.addReport now title description (severity.getD .low)
    (.ok r, { st with store := store' })

/-! ## Capability tokens and the attachment routes -/

/-- The claim set `{ reportId, file }` signed into an attachment download
token (`src/routes/reports.ts` line 250). -/
structure CapClaims where
  reportId : Int
  file : String
deriving DecidableEq, Repr

/-- A decoded capability token: claims, absolute expiry, and signature. -/
structure CapToken where
  claims : CapClaims
  exp : Int
  mac : Int
deriving DecidableEq, Repr

/-- Modelled from the spec: the Token Codec's signature (the `jsonwebtoken`
library, which is not part of `src/`).  Per §4.1 the codec signs the claim
payload plus an absolute expiry with a process-wide secret, and
verification recomputes the signature over the same data.  A concrete
keyed checksum stands in for the HMAC. -/
def macOf (secret : String) (c : CapClaims) (exp : Int) : Int :=
  ((secret.length : Int) + 1) * 1000003 + ((c.file.length : Int) + 1) * 1009
    + c.reportId * 31 + exp

/-- Modelled from the spec: `sign(claims, ttl)` of the Token Codec (§4.1):
embeds the absolute expiry `now + ttl` and the signature. -/
def signCap (secret : String) (now ttl : Int) (c : CapClaims) : CapToken :=
  { claims := c, exp := now + ttl, mac := macOf secret c (now + ttl) }

/-- Modelled from the spec: `verify(token)` of the Token Codec (§4.1):
recomputes the signature and rejects on mismatch or on `now > expiry`. -/
def verifyCap (secret : String) (now : Int) (t : CapToken) : Option CapClaims :=
  if t.mac == macOf secret t.claims t.exp && now ≤ t.exp then
    some t.claims
  else
    none

/-- The multer file metadata the upload handler reads from `req.file`. -/
structure FileInfo where
  filename : String
  originalName : String
  mimetype : String
  size : Int
deriving DecidableEq, Repr

/-- Result of the upload handler: error, or 200 with the minted download
token (the handler embeds it in `downloadUrl`). -/
inductive UploadResult
  | err (status : Nat) (msg : String)
  | ok (token : CapToken)
deriving DecidableEq, Repr

/-- `POST /reports/:id/attachment` (`src/routes/reports.ts` lines 224–253):
id-format check, report existence, file presence, then
`ReportStore.addAttachment` followed by minting a 15-minute (900 s)
capability token for `(reportId, filename)`.  No audit entry is written. -/
def uploadHandler (st : ServerState) (secret : String) (now : Int)
    (idParam : Option Int) (file : Option FileInfo) :
    UploadResult × ServerState :=
  match idParam with
  | none => (.err 400 "Invalid report ID format", st)
  | some id =>
    match st.store.getReport id with
    | none => (.err 404 "Report not found", st)
    | some _ =>
      match file with
      | none => (.err 400 "No file uploaded", st)
      | some f =>
        let a : Attachment :=
          { filename := f.filename, originalName := f.originalName,
            mimetype := f.mimetype, size := f.size, uploadedAt := now }
        let store' := (st.store.addAttachment now id a).getD st.store
        let token := signCap secret now 900 { reportId := id, file := f.filename }
        (.ok token, { st with store := store' })

/-- The `token` query parameter of the download route: absent (or empty,
which is falsy), present but not decodable as a token (structural
malformation), or a decoded token. -/
inductive TokenInput
  | missing
  | malformed
  | tok (t : CapToken)
deriving DecidableEq, Repr

/-- Result of the download handler: error, or the file response (the
`Content-Type` / `Content-Disposition` metadata; the byte stream lives in
the external storage collaborator). -/
inductive DownloadResult
  | err (status : Nat) (msg : String)
  | ok (mimetype originalName : String)
deriving DecidableEq, Repr

/-- `GET /reports/:id/attachment/:filename` (`src/routes/reports.ts` lines
256–291): request-shape check, token presence, codec verification (failure
⇒ 401), claims-vs-path comparison (mismatch ⇒ 403), then repository
existence (absence ⇒ 404). -/
def downloadHandler (st : ServerState) (secret : String) (now : Int)
    (idParam : Option Int) (filename : String) (token : TokenInput) :
    DownloadResult :=
  match idParam with
  | none => .err 400 "Invalid request"
  | some id =>
    if filename == "" then .err 400 "Invalid request"
    else
      match token with
      | .missing => .err 401 "Missing access token"
      | .malformed => .err 401 "Unauthorized or expired token"
      | .tok t =>
        match verifyCap secret now t with
        | none => .err 401 "Unauthorized or expired token"
        | some decoded =>
          if decoded.reportId != id || decoded.file != filename then
            .err 403 "Invalid token for this file"
          else
            match st.store.getReport id with
            | none => .err 404 "File not found"
            | some report =>
              match report.attachments.find? (fun att => att.filename == filename) with
              | none => .err 404 "File not found"
              | some attachment => .ok attachment.mimetype attachment.originalName

/-! ## Entries pagination of GET /reports/:id?include=entries -/

/-- A JavaScript number that may be `undefined` or `NaN` (the possible
states of the `page`/`pageSize` locals in the GET handler). -/
inductive JsNum
  | undef
  | nan
  | val (v : Int)
deriving DecidableEq, Repr

/-- JavaScript truthiness of such a number: `undefined`, `NaN` and `0` are
falsy. -/
def JsNum.truthy : JsNum → Bool
  | .val v => v != 0
  | _ => false

/-- `parseInt(s, 10)`: optional sign followed by leading decimal digits;
`NaN` when no digit is found. -/
def jsParseInt (s : String) : JsNum :=
  let digitsVal : List Char → Int := fun ds =>
    ds.foldl (fun a c => a * 10 + ((c.toNat : Int) - ('0'.toNat : Int))) 0
  let core : List Char → Option Int := fun cs =>
    let ds := cs.takeWhile Char.isDigit
    if ds.isEmpty then none else some (digitsVal ds)
  match s.data with
  | '-' :: rest => match core rest with
    | some n => .val (-n)
    | none => .nan
  | '+' :: rest => match core rest with
    | some n => .val n
    | none => .nan
  | cs => match core cs with
    | some n => .val n
    | none => .nan

/-- `req.query.page ? parseInt(req.query.page, 10) : undefined`: an absent
query value, or an empty string (falsy), yields `undefined`. -/
def queryNum (q : Option String) : JsNum :=
  match q with
  | none => .undef
  | some s => if s == "" then .undef else jsParseInt s

/-- Outcome of the pagination block: a 400 (`Invalid pagination
parameters`), a `(page, pageSize)` window, or no pagination at all (the
full entry list is returned). -/
inductive PagOutcome
  | invalid
  | window (page pageSize : Int)
  | all
deriving DecidableEq, Repr

/-- The pagination block of the GET handler (`src/routes/reports.ts` lines
69–79), with JavaScript truthiness made explicit:
`if (page && !pageSize) pageSize = 10; if (!page && pageSize) page = 1;
if (page && pageSize) { if (isNaN..||..<1) 400 else slice }`. -/
def resolvePagination (page0 pageSize0 : JsNum) : PagOutcome :=
  let pageSize1 := if page0.truthy && !pageSize0.truthy then JsNum.val 10 else pageSize0
  let page1 := if !page0.truthy && pageSize1.truthy then JsNum.val 1 else page0
  if page1.truthy && pageSize1.truthy then
    match page1, pageSize1 with
    | .val p, .val ps => if p < 1 || ps < 1 then .invalid else .window p ps
    | _, _ => .invalid  -- unreachable: truthy values are `.val`
  else
    .all

/-- Insert into a list sorted by the comparison `le`. -/
def insertSorted (le : Entry → Entry → Bool) (e : Entry) : List Entry → List Entry
  | [] => [e]
  | x :: xs => if le e x then e :: x :: xs else x :: insertSorted le e xs

/-- A sort by the comparison `le` (structural, so concrete instances reduce
in the kernel; the claims under proof do not depend on which sort the
runtime's `Array.prototype.sort` uses). -/
def sortByLe (le : Entry → Entry → Bool) : List Entry → List Entry
  | [] => []
  | x :: xs => insertSorted le x (sortByLe le xs)

/-- The entry sort of the GET handler: by `createdAt`, ascending only when
`order=asc`, else descending. -/
def sortEntries (orderQ : Option String) (entries : List Entry) : List Entry :=
  if orderQ == some "asc" then
    sortByLe (fun a b => a.createdAt ≤ b.createdAt) entries
  else
    sortByLe (fun a b => b.createdAt ≤ a.createdAt) entries

/-- The `include=entries` branch of `GET /reports/:id`: sort, resolve
pagination, slice.  `none` is the 400 `Invalid pagination parameters`
response; `some es` is the `entries` array of the 200 response. -/
def entriesView (report : Report) (orderQ pageQ pageSizeQ : Option String) :
    Option (List Entry) :=
  let entries := sortEntries orderQ report.entries
  match resolvePagination (queryNum pageQ) (queryNum pageSizeQ) with
  | .invalid => none
  | .all => some entries
  | .window p ps => some ((entries.drop ((p - 1) * ps).toNat).take ps.toNat)

/-! ## Operation sequences over the repository and the API -/

/-- A repository-level operation for the id-allocation invariant:
`ReportStore.addReport` or `ReportStore.deleteReport`. -/
inductive StoreOp
  | create (now : Int) (title description : String) (severity : Severity)
  | delete (id : Int)
deriving DecidableEq, Repr

/-- Apply one repository operation; returns the id assigned by a create. -/
def applyStoreOp (s : ReportStore) : StoreOp → ReportStore × Option Int
  | .create now t d sv =>
      let (r, s') := s.addReport now t d sv
      (s', some r.id)
  | .delete id => ((s.deleteReport id).2, none)

/-- The ids assigned by the creates of an operation sequence, in order. -/
def assignedIds (s : ReportStore) : List StoreOp → List Int
  | [] => []
  | op :: ops =>
      let (s', i?) := applyStoreOp s op
      match i? with
      | some i => i :: assignedIds s' ops
      | none => assignedIds s' ops

/-- A state-mutating request against the exposed routes. -/
inductive ApiOp
  | create (now : Int) (title description : String) (severity : Option Severity)
  | update (now : Int) (user : Option AuthUser) (idParam : Option Int) (body : UpdateBody)
  | upload (secret : String) (now : Int) (idParam : Option Int) (file : Option FileInfo)
deriving DecidableEq, Repr

/-- The state transition of one request. -/
def applyApiOp (st : ServerState) : ApiOp → ServerState
  | .create now t d sv => (createHandler st now t d sv).2
  | .update now u i b => (updateHandler st now u i b).2
  | .upload sec now i f => (uploadHandler st sec now i f).2

/-- Run a request sequence. -/
def runApi (st : ServerState) : List ApiOp → ServerState
  | [] => st
  | op :: ops => runApi (applyApiOp st op) ops

/-- The server state at process start. -/
def ServerState.initial : ServerState :=
  { store := ReportStore.initial, auditLogs := [] }

/-- Case-insensitive title uniqueness across the stored reports. -/
def TitleUnique (s : ReportStore) : Prop :=
  s.reports.Pairwise (fun a b => lowerStr a.title ≠ lowerStr b.title)

/-- The repository invariant maintained by the exposed operations:
pairwise-distinct ids and case-insensitively distinct titles, all ids in
`[1, nextId)`, and `nextId ≥ 1`. -/
def GoodStore (s : ReportStore) : Prop :=
  s.reports.Pairwise (fun a b => a.id ≠ b.id ∧ lowerStr a.title ≠ lowerStr b.title)
  ∧ (∀ r ∈ s.reports, 1 ≤ r.id ∧ r.id < s.nextId)
  ∧ 1 ≤ s.nextId

/-! ## Reference semantics of `getReport`/`getAllReports` (for the
defensive-copy question)

`ReportStore.getAllReports` returns `this.reports` — the internal array
object itself — and `ReportStore.getReport` returns the stored `Report`
object found by `find`.  To make the aliasing observable in a pure
embedding, the array is modelled as a list of heap addresses and the
objects live on an explicit heap; the two getters hand out addresses, and
a caller-side write through such an address is a heap update. -/

/-- The store with JavaScript reference semantics made explicit. -/
structure HeapStore where
  refs : List Nat
  heap : List (Nat × Report)
deriving DecidableEq, Repr

/-- Dereference a heap address. -/
def heapLookup (h : List (Nat × Report)) (a : Nat) : Option Report :=
  (h.find? (fun p => p.1 == a)).map Prod.snd

namespace HeapStore

/-- `getReport` under reference semantics: the caller receives the address
of the stored object, not a copy. -/
def getReportRef (s : HeapStore) (id : Int) : Option Nat :=
  s.refs.find? (fun a =>
    match heapLookup s.heap a with
    | some r => r.id == id
    | none => false)

/-- `getAllReports` under reference semantics: the internal array itself. -/
def getAllReportsRefs (s : HeapStore) : List Nat :=
  s.refs

/-- A caller-side mutation through a reference obtained from a getter:
`report.title = t`. -/
def writeTitle (s : HeapStore) (a : Nat) (t : String) : HeapStore :=
  { s with heap := s.heap.map fun p =>
      if p.1 == a then (p.1, { p.2 with title := t }) else p }

/-- What a subsequent `getReport` observes. -/
def observeReport (s : HeapStore) (id : Int) : Option Report :=
  match s.getReportRef id with
  | some a => heapLookup s.heap a
  | none => none

end HeapStore

/-! ## Concrete fixtures used by witnesses and counterexamples -/

/-- A report with the given id, title, description and severity and no
children (timestamps 0). -/
def mkReport (id : Int) (title description : String) (sv : Severity) : Report :=
  { id := id, title := title, description := description, severity := sv,
    createdAt := 0, updatedAt := 0, entries := [], attachments := [] }

/-- A server state holding exactly the given reports and an empty audit
log, with `nextId` one past the largest id used. -/
def mkState (rs : List Report) (nextId : Int) : ServerState :=
  { store := { reports := rs, nextId := nextId }, auditLogs := [] }

/-! ## C10: an empty PUT body is rejected before any other check -/

/-- C10: a PUT whose body has no keys is answered with the 400
`No update data provided` failure for every store, every caller and every
(numeric) id — in particular before the existence, uniqueness and role
checks, and even when the id does not exist — and the state is unchanged,
so the no-op success for identical payloads does not extend to the empty
payload. -/
theorem spec_C10 (st : ServerState) (now : Int) (user : Option AuthUser)
    (id : Int) (body : UpdateBody) (h : body.isEmpty = true) :
    updateHandler st now user (some id) body
      = (.err 400 "No update data provided", st) := by
  simp [updateHandler, h]

theorem spec_C10_witness :
    updateHandler ServerState.initial 0 none (some 42) ⟨none, none, none⟩
      = (.err 400 "No update data provided", ServerState.initial) :=
  spec_C10 ServerState.initial 0 none 42 ⟨none, none, none⟩ (by decide)

/-! ## C1: the severity-escalation gate on a genuine transition -/

/-- C1: for a stored report whose severity is not `critical`, the payload
`{severity: "critical"}` is rejected for a `developer` with 403 and the
rule-specific message, leaving the state unchanged; the identical payload
from an `admin` succeeds and appends exactly one audit record whose
`changes` hold exactly the `severity` field with the old and new values. -/
theorem spec_C1 (st : ServerState) (now : Int) (devId admId : String)
    (id : Int) (r : Report)
    (hget : st.store.getReport id = some r)
    (hsev : r.severity ≠ .critical) :
    (updateHandler st now (some ⟨devId, .developer⟩) (some id)
        ⟨none, none, some .critical⟩
      = (.err 403 "Only admins can escalate severity to critical", st))
    ∧ (updateHandler st now (some ⟨admId, .admin⟩) (some id)
        ⟨none, none, some .critical⟩
      = (.ok { r with severity := .critical, updatedAt := now },
         { store := { st.store with
             reports := replaceFirst st.store.reports id
               { r with severity := .critical, updatedAt := now } },
           auditLogs := st.auditLogs
             ++ [{ reportId := r.id, userId := admId,
                   changes := [FieldChange.severity r.severity .critical],
                   timestamp := now }] })) := by
  have hb : (Severity.critical != r.severity) = true := by
    simp only [bne_iff_ne, ne_eq]
    exact fun h => hsev h.symm
  constructor
  · simp [updateHandler, hget, UpdateBody.isEmpty, UpdateBody.schemaOk,
      titleConflict, escalationGate]
  · simp [updateHandler, hget, UpdateBody.isEmpty, UpdateBody.schemaOk,
      titleConflict, escalationGate, applyUpdates, diffTitle,
      diffDescription, diffSeverity, hb]

theorem spec_C1_witness :
    (updateHandler (mkState [mkReport 1 "T" "D" .low] 2) 7
        (some ⟨"dev", .developer⟩) (some 1) ⟨none, none, some .critical⟩
      = (.err 403 "Only admins can escalate severity to critical",
         mkState [mkReport 1 "T" "D" .low] 2))
    ∧ (updateHandler (mkState [mkReport 1 "T" "D" .low] 2) 7
        (some ⟨"adm", .admin⟩) (some 1) ⟨none, none, some .critical⟩
      = (.ok { mkReport 1 "T" "D" .low with severity := .critical, updatedAt := 7 },
         { store := { (mkState [mkReport 1 "T" "D" .low] 2).store with
             reports := replaceFirst (mkState [mkReport 1 "T" "D" .low] 2).store.reports 1
               { mkReport 1 "T" "D" .low with severity := .critical, updatedAt := 7 } },
           auditLogs := []
             ++ [{ reportId := 1, userId := "adm",
                   changes := [FieldChange.severity .low .critical],
                   timestamp := 7 }] })) :=
  spec_C1 (mkState [mkReport 1 "T" "D" .low] 2) 7 "dev" "adm" 1
    (mkReport 1 "T" "D" .low) rfl (by decide)

/-! ## C2: re-submitting an already-critical severity -/

/-- C2 counterexample: on a report whose stored severity is already
`critical`, a `developer` re-submitting `{severity: "critical"}` does NOT
succeed — the handler's gate tests only the incoming value, so the request
is rejected with the 403 escalation error (and, the state being unchanged,
no audit entry is written either way). -/
theorem spec_C2_counterexample :
    (updateHandler (mkState [mkReport 1 "T" "D" .critical] 2) 9
        (some ⟨"dev", .developer⟩) (some 1) ⟨none, none, some .critical⟩).1
      = .err 403 "Only admins can escalate severity to critical"
    ∧ ((updateHandler (mkState [mkReport 1 "T" "D" .critical] 2) 9
        (some ⟨"dev", .developer⟩) (some 1) ⟨none, none, some .critical⟩).1).isOk
      = false := by
  constructor <;> rfl

/-- C2 amended: re-submitting `{severity: "critical"}` on an
already-critical report succeeds without error, without an audit entry and
without touching the report for an `admin` caller; a `developer` caller is
instead rejected with the 403 escalation error, because the gate checks
only that the incoming value is `critical`, not that it differs from the
stored one. -/
theorem spec_C2_amended (st : ServerState) (now : Int) (admId devId : String)
    (id : Int) (r : Report)
    (hget : st.store.getReport id = some r)
    (hsev : r.severity = .critical) :
    (updateHandler st now (some ⟨admId, .admin⟩) (some id)
        ⟨none, none, some .critical⟩ = (.ok r, st))
    ∧ (updateHandler st now (some ⟨devId, .developer⟩) (some id)
        ⟨none, none, some .critical⟩
      = (.err 403 "Only admins can escalate severity to critical", st)) := by
  constructor
  · simp [updateHandler, hget, UpdateBody.isEmpty, UpdateBody.schemaOk,
      titleConflict, escalationGate, applyUpdates, diffTitle,
      diffDescription, diffSeverity, hsev]
  · simp [updateHandler, hget, UpdateBody.isEmpty, UpdateBody.schemaOk,
      titleConflict, escalationGate]

theorem spec_C2_amended_witness :
    (updateHandler (mkState [mkReport 1 "T" "D" .critical] 2) 9
        (some ⟨"adm", .admin⟩) (some 1) ⟨none, none, some .critical⟩
      = (.ok (mkReport 1 "T" "D" .critical),
         mkState [mkReport 1 "T" "D" .critical] 2))
    ∧ (updateHandler (mkState [mkReport 1 "T" "D" .critical] 2) 9
        (some ⟨"dev", .developer⟩) (some 1) ⟨none, none, some .critical⟩
      = (.err 403 "Only admins can escalate severity to critical",
         mkState [mkReport 1 "T" "D" .critical] 2)) :=
  spec_C2_amended (mkState [mkReport 1 "T" "D" .critical] 2) 9 "adm" "dev" 1
    (mkReport 1 "T" "D" .critical) rfl rfl

/-! ## C3: repeated identical updates -/

/-- C3 counterexample: a non-empty payload equal to the stored values is
NOT always a successful no-op: when the stored severity is `critical` and
the caller is a `developer`, re-submitting the stored values is rejected
with the 403 escalation error instead of succeeding. -/
theorem spec_C3_counterexample :
    (updateHandler (mkState [mkReport 1 "T" "D" .critical] 2) 9
        (some ⟨"dev", .developer⟩) (some 1)
        ⟨some "T", some "D", some .critical⟩).1
      = .err 403 "Only admins can escalate severity to critical"
    ∧ ((updateHandler (mkState [mkReport 1 "T" "D" .critical] 2) 9
        (some ⟨"dev", .developer⟩) (some 1)
        ⟨some "T", some "D", some .critical⟩).1).isOk = false := by
  constructor <;> rfl

/-- C3 amended: a non-empty update payload whose supplied fields all equal
the stored values succeeds, appends no audit record, leaves `updatedAt`
untouched and leaves the whole state identical — provided the supplied
title does not case-insensitively collide with another report (true in
every reachable state) and the escalation gate does not fire, i.e. the
caller is an admin or the supplied severity is not `critical` (on an
already-critical report a non-admin is instead rejected with 403). -/
theorem spec_C3_amended (st : ServerState) (now : Int) (user : Option AuthUser)
    (id : Int) (r : Report) (body : UpdateBody)
    (hget : st.store.getReport id = some r)
    (hne : body.isEmpty = false)
    (ht : body.title = none ∨ body.title = some r.title)
    (hd : body.description = none ∨ body.description = some r.description)
    (hs : body.severity = none ∨ body.severity = some r.severity)
    (htne : r.title ≠ "")
    (hdne : r.description ≠ "")
    (hconf : ∀ t, body.title = some t → st.store.titleExists t (some id) = false)
    (hgate : body.severity = some .critical →
      ∀ u, user = some u → u.role = .admin) :
    updateHandler st now user (some id) body = (.ok r, st) := by
  have hG : escalationGate body.severity user = false := by
    unfold escalationGate
    by_cases hc : body.severity = some Severity.critical
    · cases user with
      | none => simp
      | some u =>
          have hu := hgate hc u rfl
          simp [hu]
    · simp [hc]
  have hT : titleConflict st.store id body.title = false := by
    rcases ht with h | h
    · simp [titleConflict, h]
    · simp [titleConflict, h, hconf r.title h]
  have hS : body.schemaOk = true := by
    rcases ht with h | h <;> rcases hd with h2 | h2 <;>
      simp [UpdateBody.schemaOk, h, h2, htne, hdne]
  have hA : applyUpdates r body = ([], r) := by
    rcases ht with h | h <;> rcases hd with h2 | h2 <;> rcases hs with h3 | h3 <;>
      simp [applyUpdates, diffTitle, diffDescription, diffSeverity, h, h2, h3]
  simp [updateHandler, hget, hne, hS, hT, hG, hA]

theorem spec_C3_amended_witness :
    updateHandler (mkState [mkReport 1 "T" "D" .low] 2) 5
        (some ⟨"dev", .developer⟩) (some 1) ⟨some "T", some "D", some .low⟩
      = (.ok (mkReport 1 "T" "D" .low), mkState [mkReport 1 "T" "D" .low] 2) :=
  spec_C3_amended (mkState [mkReport 1 "T" "D" .low] 2) 5
    (some ⟨"dev", .developer⟩) 1 (mkReport 1 "T" "D" .low)
    ⟨some "T", some "D", some .low⟩ rfl (by decide) (Or.inr rfl) (Or.inr rfl)
    (Or.inr rfl) (by decide) (by decide)
    (fun t h => by cases h; decide)
    (fun h => absurd h (by decide))

/-! ## C4: download-path verification order and outcomes -/

/-- C4: on the download route, (1) any codec verification failure — bad
signature, structural malformation, or elapsed TTL (an expiry in the past
makes `verifyCap` fail even when the signature matches) — yields 401, for
every repository state, i.e. before any existence check; (2) a token that
verifies but whose decoded `(reportId, file)` differs from the requested
path in either component yields 403, distinct from the codec failure, again
for every repository state; (3) a verified, matching token against an
absent report or absent attachment yields 404. -/
theorem spec_C4 (st : ServerState) (secret : String) (now : Int) (id : Int)
    (fn : String) (hfn : fn ≠ "") :
    (∀ t : CapToken, verifyCap secret now t = none →
       downloadHandler st secret now (some id) fn (.tok t)
         = .err 401 "Unauthorized or expired token")
    ∧ (downloadHandler st secret now (some id) fn .malformed
         = .err 401 "Unauthorized or expired token")
    ∧ (∀ t : CapToken, t.exp < now →
       downloadHandler st secret now (some id) fn (.tok t)
         = .err 401 "Unauthorized or expired token")
    ∧ (∀ t : CapToken, ∀ c : CapClaims, verifyCap secret now t = some c →
       (c.reportId ≠ id ∨ c.file ≠ fn) →
       downloadHandler st secret now (some id) fn (.tok t)
         = .err 403 "Invalid token for this file")
    ∧ (∀ t : CapToken, ∀ c : CapClaims, verifyCap secret now t = some c →
       c.reportId = id → c.file = fn →
       (st.store.getReport id = none
        ∨ (∃ r, st.store.getReport id = some r
            ∧ r.attachments.find? (fun a => a.filename == fn) = none)) →
       downloadHandler st secret now (some id) fn (.tok t)
         = .err 404 "File not found") := by
  have hf : (fn == "") = false := by
    simp [hfn]
  refine ⟨?_, ?_, ?_, ?_, ?_⟩
  · intro t hv
    simp [downloadHandler, hf, hv]
  · simp [downloadHandler, hf]
  · intro t hexp
    have hv : verifyCap secret now t = none := by
      have h1 : ¬ now ≤ t.exp := by omega
      simp [verifyCap, h1]
    simp [downloadHandler, hf, hv]
  · intro t c hv hmis
    have hcond : (c.reportId != id || c.file != fn) = true := by
      rcases hmis with h | h <;> simp [h, bne_iff_ne]
    simp [downloadHandler, hf, hv, hcond]
  · intro t c hv h1 h2 habs
    subst h1
    subst h2
    rcases habs with hnone | ⟨r, hsome, hfind⟩
    · simp [downloadHandler, hf, hv, hnone]
    · simp [downloadHandler, hf, hv, hsome, hfind]

theorem spec_C4_witness :
    (downloadHandler ServerState.initial "k" 1000 (some 5) "X"
        (.tok (signCap "k" 0 900 ⟨5, "X"⟩))
      = .err 401 "Unauthorized or expired token")
    ∧ (downloadHandler ServerState.initial "k" 100 (some 5) "Y"
        (.tok (signCap "k" 0 900 ⟨5, "X"⟩))
      = .err 403 "Invalid token for this file")
    ∧ (downloadHandler ServerState.initial "k" 100 (some 5) "X"
        (.tok (signCap "k" 0 900 ⟨5, "X"⟩))
      = .err 404 "File not found") :=
  ⟨(spec_C4 ServerState.initial "k" 1000 5 "X" (by decide)).2.2.1
      (signCap "k" 0 900 ⟨5, "X"⟩) (by decide),
   (spec_C4 ServerState.initial "k" 100 5 "Y" (by decide)).2.2.2.1
      (signCap "k" 0 900 ⟨5, "X"⟩) ⟨5, "X"⟩ (by decide) (Or.inr (by decide)),
   (spec_C4 ServerState.initial "k" 100 5 "X" (by decide)).2.2.2.2
      (signCap "k" 0 900 ⟨5, "X"⟩) ⟨5, "X"⟩ (by decide) rfl rfl
      (Or.inl rfl)⟩

/-! ## C5: is every effective mutation audited? -/

/-- C5 counterexample: a successful attachment upload effectively mutates
the stored report (appends an `Attachment` and recomputes `updatedAt`) yet
appends NO audit record — the audit log stays empty. -/
theorem spec_C5_counterexample :
    ((uploadHandler (mkState [mkReport 1 "T" "D" .low] 2) "k" 50 (some 1)
        (some ⟨"f1", "o", "text/plain", 3⟩)).2.store
      ≠ (mkState [mkReport 1 "T" "D" .low] 2).store)
    ∧ ((uploadHandler (mkState [mkReport 1 "T" "D" .low] 2) "k" 50 (some 1)
        (some ⟨"f1", "o", "text/plain", 3⟩)).2.auditLogs = []) := by
  constructor
  · decide
  · rfl

/-- C5 amended: only the PUT field-update path writes audit records.  The
attachment upload handler never touches the audit log — for every state and
input the log is unchanged — even though a successful upload does mutate the
stored report, appending the attachment metadata and setting `updatedAt`. -/
theorem spec_C5_amended (st : ServerState) (secret : String) (now : Int)
    (idParam : Option Int) (file : Option FileInfo) :
    ((uploadHandler st secret now idParam file).2.auditLogs = st.auditLogs)
    ∧ (∀ id f r, idParam = some id → file = some f →
        st.store.getReport id = some r →
        (uploadHandler st secret now idParam file).2.store.reports
          = st.store.reports.map (fun rr =>
              if rr.id == id then
                { rr with
                  attachments := rr.attachments ++
                    [{ filename := f.filename, originalName := f.originalName,
                       mimetype := f.mimetype, size := f.size,
                       uploadedAt := now }],
                  updatedAt := now }
              else rr)) := by
  constructor
  · rcases idParam with _ | id
    · rfl
    · rcases hg : st.store.getReport id with _ | r
      · simp [uploadHandler, hg]
      · rcases file with _ | f
        · simp [uploadHandler, hg]
        · simp [uploadHandler, hg]
  · intro id f r hid hf hg
    subst hid
    subst hf
    simp [uploadHandler, hg, ReportStore.addAttachment]

theorem spec_C5_amended_witness :
    ((uploadHandler (mkState [mkReport 1 "T" "D" .low] 2) "k" 50 (some 1)
        (some ⟨"f1", "o", "text/plain", 3⟩)).2.auditLogs
      = (mkState [mkReport 1 "T" "D" .low] 2).auditLogs)
    ∧ ((uploadHandler (mkState [mkReport 1 "T" "D" .low] 2) "k" 50 (some 1)
        (some ⟨"f1", "o", "text/plain", 3⟩)).2.store.reports
      = (mkState [mkReport 1 "T" "D" .low] 2).store.reports.map (fun rr =>
          if rr.id == 1 then
            { rr with
              attachments := rr.attachments ++
                [{ filename := "f1", originalName := "o",
                   mimetype := "text/plain", size := 3, uploadedAt := 50 }],
              updatedAt := 50 }
          else rr)) :=
  ⟨(spec_C5_amended (mkState [mkReport 1 "T" "D" .low] 2) "k" 50 (some 1)
      (some ⟨"f1", "o", "text/plain", 3⟩)).1,
   (spec_C5_amended (mkState [mkReport 1 "T" "D" .low] 2) "k" 50 (some 1)
      (some ⟨"f1", "o", "text/plain", 3⟩)).2 1 ⟨"f1", "o", "text/plain", 3⟩
      (mkReport 1 "T" "D" .low) rfl rfl rfl⟩

/-! ## C6: id allocation is strictly increasing and never reused -/

/-- Every id assigned while running `ops` from `s` is at least `s.nextId`. -/
lemma assignedIds_lower :
    ∀ (ops : List StoreOp) (s : ReportStore) (i : Int),
      i ∈ assignedIds s ops → s.nextId ≤ i := by
  intro ops
  induction ops with
  | nil =>
      intro s i h
      simp [assignedIds] at h
  | cons op ops ih =>
      intro s i h
      cases op with
      | create now t d sv =>
          simp only [assignedIds, applyStoreOp, ReportStore.addReport,
            List.mem_cons] at h
          rcases h with h | h
          · exact le_of_eq h.symm
          · have := ih _ _ h
            simp only at this
            omega
      | delete id =>
          simp only [assignedIds, applyStoreOp] at h
          have hnext : ((s.deleteReport id).2).nextId = s.nextId := by
            unfold ReportStore.deleteReport
            split <;> rfl
          have := ih _ _ h
          omega

/-- The trace of assigned ids is strictly increasing. -/
lemma assignedIds_pairwise :
    ∀ (ops : List StoreOp) (s : ReportStore),
      List.Pairwise (· < ·) (assignedIds s ops) := by
  intro ops
  induction ops with
  | nil =>
      intro s
      simp [assignedIds]
  | cons op ops ih =>
      intro s
      cases op with
      | create now t d sv =>
          simp only [assignedIds, applyStoreOp, ReportStore.addReport]
          refine List.Pairwise.cons ?_ (ih _)
          intro i hi
          have := assignedIds_lower ops _ i hi
          simp only at this
          omega
      | delete id =>
          simp only [assignedIds, applyStoreOp]
          exact ih _

/-- C6: over every sequence of create and delete operations from the
initial repository, the ids assigned by successive creates are strictly
increasing — each new id exceeds every id assigned before it — and hence
pairwise distinct: an id is never reused, even after a delete. -/
theorem spec_C6 :
    ∀ ops : List StoreOp,
      List.Pairwise (· < ·) (assignedIds ReportStore.initial ops)
      ∧ List.Pairwise (· ≠ ·) (assignedIds ReportStore.initial ops) :=
  fun ops =>
    ⟨assignedIds_pairwise ops _,
     (assignedIds_pairwise ops _).imp Int.ne_of_lt⟩

/-! ## C8: pagination defaulting and validation -/

/-- C8 counterexample: a supplied non-numeric `page` (`"abc"`, parsing to
`NaN`) with no `pageSize` is NOT a 400 validation failure — `NaN` is falsy,
so the pagination block is silently skipped and the full (one-element)
entry list is returned; likewise a supplied `page=0` is silently treated as
absent rather than rejected as `< 1`. -/
theorem spec_C8_counterexample :
    (jsParseInt "abc" = JsNum.nan)
    ∧ (entriesView { mkReport 1 "T" "D" .low with entries := [⟨1, "u", "c", 10⟩] }
        none (some "abc") none = some [⟨1, "u", "c", 10⟩])
    ∧ (resolvePagination (queryNum (some "0")) (queryNum none) = PagOutcome.all) := by
  refine ⟨rfl, rfl, rfl⟩

/-- C8 amended: the mutual defaulting (`pageSize := 10`, `page := 1`) only
happens when the supplied value is truthy (a non-zero number); a supplied
value parsing to `NaN` or `0` behaves exactly as if the parameter were
absent — it is silently ignored, not rejected; and the 400 `Invalid
pagination parameters` failure occurs exactly when both values resolve to
truthy numbers and one of them is `< 1` (i.e. negative).  A 400 from the
entries view coincides with the `invalid` outcome of the pagination
block. -/
theorem spec_C8_amended :
    (∀ v : Int, 1 ≤ v →
       resolvePagination (.val v) .undef = .window v 10)
    ∧ (∀ v : Int, 1 ≤ v →
       resolvePagination .undef (.val v) = .window 1 v)
    ∧ (∀ p ps : Int, p ≠ 0 → ps ≠ 0 → (p < 1 ∨ ps < 1) →
       resolvePagination (.val p) (.val ps) = .invalid)
    ∧ (∀ x, resolvePagination .nan x = resolvePagination .undef x)
    ∧ (∀ x, resolvePagination (.val 0) x = resolvePagination .undef x)
    ∧ (∀ x, resolvePagination x .nan = resolvePagination x .undef)
    ∧ (∀ x, resolvePagination x (.val 0) = resolvePagination x .undef)
    ∧ (∀ rpt o p s, entriesView rpt o p s = none ↔
       resolvePagination (queryNum p) (queryNum s) = .invalid) := by
  refine ⟨?_, ?_, ?_, ?_, ?_, ?_, ?_, ?_⟩
  · intro v hv
    have h0 : v ≠ 0 := by omega
    have h1 : ¬ v < 1 := by omega
    simp [resolvePagination, JsNum.truthy, h0, h1]
  · intro v hv
    have h0 : v ≠ 0 := by omega
    have h1 : ¬ v < 1 := by omega
    simp [resolvePagination, JsNum.truthy, h0, h1]
  · intro p ps h0 hps0 hlt
    rcases hlt with h | h <;>
      simp [resolvePagination, JsNum.truthy, h0, hps0, h]
  · intro x
    cases x with
    | val v =>
        by_cases hv : v = 0 <;> simp [resolvePagination, JsNum.truthy, hv]
    | nan => rfl
    | undef => rfl
  · intro x
    cases x with
    | val v =>
        by_cases hv : v = 0 <;> simp [resolvePagination, JsNum.truthy, hv]
    | nan => rfl
    | undef => rfl
  · intro x
    cases x with
    | val v =>
        by_cases hv : v = 0 <;> simp [resolvePagination, JsNum.truthy, hv]
    | nan => rfl
    | undef => rfl
  · intro x
    cases x with
    | val v =>
        by_cases hv : v = 0 <;> simp [resolvePagination, JsNum.truthy, hv]
    | nan => rfl
    | undef => rfl
  · intro rpt o p s
    cases h : resolvePagination (queryNum p) (queryNum s) <;>
      simp [entriesView, h]

theorem spec_C8_amended_witness :
    (resolvePagination (.val 2) .undef = .window 2 10)
    ∧ (resolvePagination .undef (.val 7) = .window 1 7)
    ∧ (resolvePagination (.val (-1)) (.val 5) = .invalid) :=
  ⟨spec_C8_amended.1 2 (by decide),
   spec_C8_amended.2.1 7 (by decide),
   spec_C8_amended.2.2.1 (-1) 5 (by decide) (by decide) (Or.inl (by decide))⟩

/-! ## C9: are the getters defensive views? -/

/-- A caller-side write through address `a` is visible to every later
lookup of `a`. -/
lemma heapLookup_writeTitle (h : List (Nat × Report)) (a : Nat) (t : String) :
    heapLookup (h.map (fun p => if p.1 == a then (p.1, { p.2 with title := t }) else p)) a
      = (heapLookup h a).map (fun r => { r with title := t }) := by
  induction h with
  | nil => rfl
  | cons p ps ih =>
      simp only [List.map_cons]
      by_cases hp : p.1 = a
      · have hfp : (if p.1 == a then (p.1, { p.2 with title := t }) else p)
            = (p.1, { p.2 with title := t }) := by simp [hp]
        rw [hfp]
        simp only [heapLookup]
        rw [List.find?_cons_of_pos, List.find?_cons_of_pos] <;> simp [hp]
      · have hfp : (if p.1 == a then (p.1, { p.2 with title := t }) else p) = p := by
          simp [hp]
        rw [hfp]
        simp only [heapLookup] at ih ⊢
        rw [List.find?_cons_of_neg, List.find?_cons_of_neg]
        · exact ih
        · simp [hp]
        · simp [hp]

/-- C9 counterexample: `getReport` hands out the stored object itself, not
a copy — after the caller assigns to `title` through the returned
reference, a subsequent `getReport` on the repository observes the new
title: the repository state, as seen by later operations, has changed. -/
theorem spec_C9_counterexample :
    (HeapStore.getReportRef ⟨[0], [(0, mkReport 1 "A" "B" .low)]⟩ 1 = some 0)
    ∧ (HeapStore.observeReport ⟨[0], [(0, mkReport 1 "A" "B" .low)]⟩ 1
        = some (mkReport 1 "A" "B" .low))
    ∧ (HeapStore.observeReport
        (HeapStore.writeTitle ⟨[0], [(0, mkReport 1 "A" "B" .low)]⟩ 0 "HACKED") 1
        = some { mkReport 1 "A" "B" .low with title := "HACKED" })
    ∧ (HeapStore.observeReport
        (HeapStore.writeTitle ⟨[0], [(0, mkReport 1 "A" "B" .low)]⟩ 0 "HACKED") 1
        ≠ some (mkReport 1 "A" "B" .low)) := by
  refine ⟨rfl, rfl, rfl, by decide⟩

/-- C9 amended: `getReport`/`getAllReports` return direct references into
the repository's internal state, not defensive copies: a mutation applied
through a reference they return is observed by all subsequent operations.
(The repository's own `updateReport` depends on exactly this aliasing to
commit its changes.)  Concretely: writing a title through any address
whose object the store can reach leaves the internal `reports` array
holding the same reference, which now dereferences to the mutated
object. -/
theorem spec_C9_amended (s : HeapStore) (a : Nat) (r : Report) (t : String)
    (h : heapLookup s.heap a = some r) :
    heapLookup (s.writeTitle a t).heap a = some { r with title := t }
    ∧ (s.writeTitle a t).refs = s.refs
    ∧ (s.writeTitle a t).getAllReportsRefs = s.getAllReportsRefs := by
  refine ⟨?_, rfl, rfl⟩
  simp only [HeapStore.writeTitle]
  rw [heapLookup_writeTitle, h]
  rfl

theorem spec_C9_amended_witness :
    (heapLookup
        (HeapStore.writeTitle ⟨[0], [(0, mkReport 1 "A" "B" .low)]⟩ 0 "Z").heap 0
      = some { mkReport 1 "A" "B" .low with title := "Z" })
    ∧ (HeapStore.writeTitle ⟨[0], [(0, mkReport 1 "A" "B" .low)]⟩ 0 "Z").refs
      = [0]
    ∧ (HeapStore.writeTitle ⟨[0], [(0, mkReport 1 "A" "B" .low)]⟩ 0 "Z").getAllReportsRefs
      = HeapStore.getAllReportsRefs ⟨[0], [(0, mkReport 1 "A" "B" .low)]⟩ :=
  spec_C9_amended ⟨[0], [(0, mkReport 1 "A" "B" .low)]⟩ 0
    (mkReport 1 "A" "B" .low) "Z" rfl

/-! ## C7: case-insensitive title uniqueness -/

/-- `find`ing a report yields a member whose id matches. -/
lemma getReport_facts {s : ReportStore} {id : Int} {r : Report}
    (h : s.getReport id = some r) : r ∈ s.reports ∧ r.id = id := by
  unfold ReportStore.getReport at h
  refine ⟨List.mem_of_find?_eq_some h, ?_⟩
  have := List.find?_some h
  simpa using this

/-- Members of `replaceFirst l id nr` are old members or `nr`. -/
lemma mem_replaceFirst {l : List Report} {id : Int} {nr x : Report}
    (h : x ∈ replaceFirst l id nr) : x ∈ l ∨ x = nr := by
  induction l with
  | nil => simp [replaceFirst] at h
  | cons r rs ih =>
      simp only [replaceFirst] at h
      by_cases hr : (r.id == id) = true
      · rw [if_pos hr] at h
        rcases List.mem_cons.mp h with h | h
        · right; exact h
        · left; exact List.mem_cons_of_mem _ h
      · rw [if_neg hr] at h
        rcases List.mem_cons.mp h with h | h
        · left; exact h ▸ List.mem_cons_self _ _
        · rcases ih h with h | h
          · left; exact List.mem_cons_of_mem _ h
          · right; exact h

/-- Replacing the report with id `id` by a report `nr` carrying the same id
preserves the distinct-ids/distinct-titles pairwise invariant, provided
`nr`'s lowered title clashes with no other id's report. -/
lemma pairwise_replaceFirst (l : List Report) (id : Int) (nr : Report)
    (hnr : nr.id = id)
    (hl : l.Pairwise (fun a b => a.id ≠ b.id ∧ lowerStr a.title ≠ lowerStr b.title))
    (hcompat : ∀ x ∈ l, x.id ≠ id → lowerStr x.title ≠ lowerStr nr.title) :
    (replaceFirst l id nr).Pairwise
      (fun a b => a.id ≠ b.id ∧ lowerStr a.title ≠ lowerStr b.title) := by
  induction l with
  | nil => simp [replaceFirst]
  | cons r rs ih =>
      rcases List.pairwise_cons.mp hl with ⟨hhead, htail⟩
      simp only [replaceFirst]
      by_cases hr : (r.id == id) = true
      · rw [if_pos hr]
        refine List.pairwise_cons.mpr ⟨?_, htail⟩
        intro x hx
        have hxid : x.id ≠ id := by
          have h1 := (hhead x hx).1
          have h2 : r.id = id := by simpa using hr
          exact fun h => h1 (h2.trans h.symm)
        refine ⟨?_, ?_⟩
        · rw [hnr]; exact fun h => hxid h.symm
        · exact fun h => hcompat x (List.mem_cons_of_mem _ hx) hxid h.symm
      · rw [if_neg hr]
        have hrid : r.id ≠ id := by simpa using hr
        refine List.pairwise_cons.mpr ⟨?_, ?_⟩
        · intro x hx
          rcases mem_replaceFirst hx with h | h
          · exact hhead x h
          · subst h
            exact ⟨by rw [hnr]; exact hrid,
                   hcompat r (List.mem_cons_self r rs) hrid⟩
        · exact ih htail (fun x hx hxid => hcompat x (List.mem_cons_of_mem _ hx) hxid)

lemma diffTitle_id (r : Report) (bt : Option String) :
    (diffTitle r bt).2.id = r.id := by
  cases bt
  · rfl
  · simp only [diffTitle]
    split <;> rfl

lemma diffDescription_id (r : Report) (bd : Option String) :
    (diffDescription r bd).2.id = r.id := by
  cases bd
  · rfl
  · simp only [diffDescription]
    split <;> rfl

lemma diffSeverity_id (r : Report) (bs : Option Severity) :
    (diffSeverity r bs).2.id = r.id := by
  cases bs
  · rfl
  · simp only [diffSeverity]
    split <;> rfl

lemma diffTitle_title (r : Report) (bt : Option String) :
    (diffTitle r bt).2.title = bt.getD r.title := by
  cases bt with
  | none => rfl
  | some t =>
      simp only [diffTitle, Option.getD_some]
      split
      · rfl
      · next h =>
          simp only [bne_iff_ne, ne_eq, not_not] at h
          simp [h]

lemma diffDescription_title (r : Report) (bd : Option String) :
    (diffDescription r bd).2.title = r.title := by
  cases bd
  · rfl
  · simp only [diffDescription]
    split <;> rfl

lemma diffSeverity_title (r : Report) (bs : Option Severity) :
    (diffSeverity r bs).2.title = r.title := by
  cases bs
  · rfl
  · simp only [diffSeverity]
    split <;> rfl

/-- The applied report of the diff-and-apply block, as a composition of the
three field steps. -/
lemma applyUpdates_snd (r : Report) (b : UpdateBody) :
    (applyUpdates r b).2 =
      (diffSeverity (diffDescription (diffTitle r b.title).2 b.description).2
        b.severity).2 := by
  unfold applyUpdates
  rcases h1 : diffTitle r b.title with ⟨c1, r1⟩
  rcases h2 : diffDescription r1 b.description with ⟨c2, r2⟩
  rcases h3 : diffSeverity r2 b.severity with ⟨c3, r3⟩
  simp [h1, h2, h3]

/-- The diff-and-apply block never changes the report's id. -/
lemma applyUpdates_id (r : Report) (b : UpdateBody) :
    (applyUpdates r b).2.id = r.id := by
  rw [applyUpdates_snd, diffSeverity_id, diffDescription_id, diffTitle_id]

/-- The title after the diff-and-apply block is the supplied title if any,
else the stored one. -/
lemma applyUpdates_title (r : Report) (b : UpdateBody) :
    (applyUpdates r b).2.title = b.title.getD r.title := by
  rw [applyUpdates_snd, diffSeverity_title, diffDescription_title,
    diffTitle_title]

/-- The create handler preserves the repository invariant. -/
lemma good_createHandler (st : ServerState) (now : Int) (t d : String)
    (sv : Option Severity) (h : GoodStore st.store) :
    GoodStore (createHandler st now t d sv).2.store := by
  unfold createHandler
  split
  · exact h
  · split
    · exact h
    · next hconf =>
        obtain ⟨hpw, hbound, hpos⟩ := h
        have hconf' : ∀ x ∈ st.store.reports, lowerStr x.title ≠ lowerStr t := by
          intro x hx
          by_contra heq
          apply hconf
          unfold ReportStore.titleExists
          rw [List.any_eq_true]
          exact ⟨x, hx, by simp [heq]⟩
        simp only [ReportStore.addReport]
        refine ⟨?_, ?_, ?_⟩
        · rw [List.pairwise_append]
          refine ⟨hpw, List.pairwise_singleton _ _, ?_⟩
          intro a ha b hb
          simp only [List.mem_singleton] at hb
          subst hb
          exact ⟨Int.ne_of_lt (hbound a ha).2, hconf' a ha⟩
        · intro x hx
          rcases List.mem_append.mp hx with hx | hx
          · have := hbound x hx
            exact ⟨this.1, by dsimp only; omega⟩
          · simp only [List.mem_singleton] at hx
            subst hx
            exact ⟨hpos, by dsimp only; omega⟩
        · dsimp only
          omega

/-- The upload handler preserves the repository invariant (it only appends
attachment metadata and bumps `updatedAt`). -/
lemma good_uploadHandler (st : ServerState) (sec : String) (now : Int)
    (idP : Option Int) (file : Option FileInfo) (h : GoodStore st.store) :
    GoodStore (uploadHandler st sec now idP file).2.store := by
  unfold uploadHandler
  rcases idP with _ | id
  · exact h
  cases hg : st.store.getReport id with
  | none =>
      simp only [hg]
      exact h
  | some r =>
      cases file with
      | none =>
          simp only [hg]
          exact h
      | some f =>
          simp only [hg, ReportStore.addAttachment, Option.getD_some]
          obtain ⟨hpw, hbound, hpos⟩ := h
          have hpres : ∀ y : Report,
              ((if y.id == id then
                  { y with
                    attachments := y.attachments ++
                      [{ filename := f.filename, originalName := f.originalName,
                         mimetype := f.mimetype, size := f.size,
                         uploadedAt := now }],
                    updatedAt := now }
                else y).id = y.id
                ∧ (if y.id == id then
                  { y with
                    attachments := y.attachments ++
                      [{ filename := f.filename, originalName := f.originalName,
                         mimetype := f.mimetype, size := f.size,
                         uploadedAt := now }],
                    updatedAt := now }
                else y).title = y.title) := by
            intro y
            split <;> exact ⟨rfl, rfl⟩
          refine ⟨?_, ?_, hpos⟩
          · rw [List.pairwise_map]
            refine hpw.imp ?_
            intro a b hab
            rw [(hpres a).1, (hpres a).2, (hpres b).1, (hpres b).2]
            exact hab
          · intro x hx
            rcases List.mem_map.mp hx with ⟨y, hy, rfl⟩
            rw [(hpres y).1]
            exact hbound y hy

/-- The update handler preserves the repository invariant. -/
lemma good_updateHandler (st : ServerState) (now : Int) (user : Option AuthUser)
    (idP : Option Int) (body : UpdateBody) (h : GoodStore st.store) :
    GoodStore (updateHandler st now user idP body).2.store := by
  unfold updateHandler
  rcases idP with _ | id
  · exact h
  dsimp only
  by_cases he : body.isEmpty = true
  · rw [if_pos he]
    exact h
  rw [if_neg he]
  by_cases hs2 : (!body.schemaOk) = true
  · rw [if_pos hs2]
    exact h
  rw [if_neg hs2]
  cases hg : st.store.getReport id with
  | none => exact h
  | some report =>
      dsimp only
      by_cases hc : titleConflict st.store id body.title = true
      · rw [if_pos hc]
        exact h
      rw [if_neg hc]
      by_cases hG : escalationGate body.severity user = true
      · rw [if_pos hG]
        exact h
      rw [if_neg hG]
      rcases hap : applyUpdates report body with ⟨changes, updated⟩
      simp only [hap]
      by_cases hlen : changes.length > 0
      · rw [if_pos hlen]
        -- the mutation branch: the report list is `replaceFirst … updated'`
        obtain ⟨hpw, hbound, hpos⟩ := h
        obtain ⟨hmem, hid⟩ := getReport_facts hg
        have hupdid : updated.id = report.id := by
          have := applyUpdates_id report body
          rw [hap] at this
          exact this
        have hupdtitle : updated.title = body.title.getD report.title := by
          have := applyUpdates_title report body
          rw [hap] at this
          exact this
        have hsch : body.schemaOk = true := by
          cases hS : body.schemaOk
          · exact absurd (by simp [hS]) hs2
          · rfl
        have hid1 : 1 ≤ id := by
          have := (hbound report hmem).1
          omega
        have hcompat : ∀ x ∈ st.store.reports, x.id ≠ id →
            lowerStr x.title ≠ lowerStr updated.title := by
          cases hbt : body.title with
          | none =>
              rw [hupdtitle, hbt]
              simp only [Option.getD_none]
              intro x hx hxid
              have hsym : Symmetric (fun a b : Report =>
                  a.id ≠ b.id ∧ lowerStr a.title ≠ lowerStr b.title) :=
                fun a b hab => ⟨hab.1.symm, hab.2.symm⟩
              have hxne : x ≠ report := fun hh => hxid (by rw [hh, hid])
              exact ((hpw.forall hsym) hx hmem hxne).2
          | some t =>
              have ht0 : t ≠ "" := by
                simp only [UpdateBody.schemaOk, hbt, Bool.and_eq_true,
                  bne_iff_ne, ne_eq, Option.some.injEq] at hsch
                exact hsch.1
              have hTE : st.store.titleExists t (some id) = false := by
                cases hE : st.store.titleExists t (some id)
                · rfl
                · exact absurd (by simp [titleConflict, hbt, ht0, hE]) hc
              rw [hupdtitle, hbt]
              simp only [Option.getD_some]
              intro x hx hxid heq
              unfold ReportStore.titleExists at hTE
              rw [List.any_eq_false] at hTE
              apply hTE x hx
              have hid0 : (id == 0) = false := by
                simp only [beq_eq_false_iff_ne, ne_eq]
                omega
              simp [heq, hid0, hxid]
        refine ⟨?_, ?_, hpos⟩
        · apply pairwise_replaceFirst _ _ _ ?_ hpw ?_
          · show updated.id = id
            rw [hupdid, hid]
          · intro x hx hxid
            exact hcompat x hx hxid
        · intro x hx
          rcases mem_replaceFirst hx with hx | hx
          · exact hbound x hx
          · subst hx
            show 1 ≤ updated.id ∧ updated.id < st.store.nextId
            rw [hupdid]
            exact hbound report hmem
      · rw [if_neg hlen]
        exact h

/-- The invariant holds in the initial state. -/
lemma good_initial : GoodStore ServerState.initial.store := by
  refine ⟨List.Pairwise.nil, ?_, ?_⟩ <;>
    simp [ServerState.initial, ReportStore.initial]

/-- The invariant is preserved by every request sequence. -/
lemma good_runApi :
    ∀ (ops : List ApiOp) (st : ServerState),
      GoodStore st.store → GoodStore (runApi st ops).store := by
  intro ops
  induction ops with
  | nil => intro st h; exact h
  | cons op ops ih =>
      intro st h
      apply ih
      cases op with
      | create now t d sv => exact good_createHandler st now t d sv h
      | update now u i b => exact good_updateHandler st now u i b h
      | upload sec now i f => exact good_uploadHandler st sec now i f h

/-- C7: (1) in every state reachable from the initial state through the
exposed mutating requests, stored titles are pairwise distinct under
case-insensitive comparison; (2) a create whose (schema-valid) title
case-insensitively matches any stored title answers 409 and leaves the
state unchanged; (3) an update whose supplied (schema-valid) title
case-insensitively matches a stored title other than the updated report's
answers 409 and leaves the state unchanged. -/
theorem spec_C7 :
    (∀ ops : List ApiOp, TitleUnique (runApi ServerState.initial ops).store)
    ∧ (∀ (st : ServerState) (now : Int) (t d : String) (sv : Option Severity),
        t ≠ "" → d ≠ "" → st.store.titleExists t none = true →
        createHandler st now t d sv
          = (.err 409 "A report with this title already exists", st))
    ∧ (∀ (st : ServerState) (now : Int) (user : Option AuthUser) (id : Int)
        (body : UpdateBody) (t : String) (r : Report),
        st.store.getReport id = some r → body.title = some t → t ≠ "" →
        body.description ≠ some "" →
        st.store.titleExists t (some id) = true →
        updateHandler st now user (some id) body
          = (.err 409 "Another report with this title already exists", st)) := by
  refine ⟨?_, ?_, ?_⟩
  · intro ops
    exact ((good_runApi ops _ good_initial).1).imp (fun hab => hab.2)
  · intro st now t d sv ht hd hte
    simp [createHandler, ht, hd, hte]
  · intro st now user id body t r hget hbt ht hd hte
    have hE : body.isEmpty = false := by
      simp [UpdateBody.isEmpty, hbt]
    have hS : body.schemaOk = true := by
      simp [UpdateBody.schemaOk, hbt, ht, hd]
    have hT : titleConflict st.store id body.title = true := by
      simp [titleConflict, hbt, ht, hte]
    simp [updateHandler, hE, hS, hget, hT]

theorem spec_C7_witness :
    (TitleUnique (runApi ServerState.initial [ApiOp.create 0 "A" "B" none]).store)
    ∧ (createHandler (mkState [mkReport 1 "Bug" "D" .low] 2) 1 "bug" "x" none
        = (.err 409 "A report with this title already exists",
           mkState [mkReport 1 "Bug" "D" .low] 2))
    ∧ (updateHandler
        (mkState [mkReport 1 "Bug" "D" .low, mkReport 2 "Other" "D" .low] 3) 4
        none (some 2) ⟨some "BUG", none, none⟩
        = (.err 409 "Another report with this title already exists",
           mkState [mkReport 1 "Bug" "D" .low, mkReport 2 "Other" "D" .low] 3)) :=
  ⟨spec_C7.1 [ApiOp.create 0 "A" "B" none],
   spec_C7.2.1 (mkState [mkReport 1 "Bug" "D" .low] 2) 1 "bug" "x" none
     (by decide) (by decide) (by decide),
   spec_C7.2.2
     (mkState [mkReport 1 "Bug" "D" .low, mkReport 2 "Other" "D" .low] 3) 4
     none 2 ⟨some "BUG", none, none⟩ "BUG" (mkReport 2 "Other" "D" .low)
     rfl rfl (by decide) (by decide) (by decide)⟩
